import Mathlib

/-!
Verification of the timeline-synchronized element state engine of a
canvas-based media compositing editor.  The definitions below are a
shallow embedding of the two source components:

* video-edior.tsx — the composition surface: the media element record,
  the element store update (updateMediaProperty), the playback clock
  (startPlaybackTimer's interval callback, resetPlayback, the timeline
  slider seek) and the per-element visibility expression.
* media-item.tsx — the per-element interaction controller
  (handleMouseDown, handleResizeMouseDown, handleMouseMove,
  handleMouseUp) and the media sync adapter (the play/pause effect and
  the position-resync effect).

Times, coordinates and dimensions are JavaScript numbers in the source;
they are embedded as rationals so every definition is executable and
every comparison decidable.
-/

/-- Variant of a media element, the source's type field: image or video. -/
inductive MediaKind where
  | image
  | video
  deriving DecidableEq, Repr

/-- MediaElement record of video-edior.tsx: id, type, src, geometry
(x, y, width, height) and visibility window (startTime, endTime). -/
structure MediaElement where
  id : String
  kind : MediaKind
  src : String
  width : ℚ
  height : ℚ
  x : ℚ
  y : ℚ
  startTime : ℚ
  endTime : ℚ
  deriving DecidableEq, Repr

/-- One field name of MediaElement together with the replacement value,
the (property, value) pair taken by updateMediaProperty. -/
inductive Patch where
  | id (v : String)
  | kind (v : MediaKind)
  | src (v : String)
  | width (v : ℚ)
  | height (v : ℚ)
  | x (v : ℚ)
  | y (v : ℚ)
  | startTime (v : ℚ)
  | endTime (v : ℚ)
  deriving DecidableEq, Repr

/-- Spread update of a single field, the source's
braces-spread-element-with-property-value expression. -/
def applyPatch (p : Patch) (e : MediaElement) : MediaElement :=
  match p with
  | .id v => { e with id := v }
  | .kind v => { e with kind := v }
  | .src v => { e with src := v }
  | .width v => { e with width := v }
  | .height v => { e with height := v }
  | .x v => { e with x := v }
  | .y v => { e with y := v }
  | .startTime v => { e with startTime := v }
  | .endTime v => { e with endTime := v }

/-- Field names of MediaElement, used to state frame conditions. -/
inductive ElemField where
  | id
  | kind
  | src
  | width
  | height
  | x
  | y
  | startTime
  | endTime
  deriving DecidableEq, Repr

/-- Value of one MediaElement field, tagged by its type. -/
inductive FieldValue where
  | str (v : String)
  | knd (v : MediaKind)
  | num (v : ℚ)
  deriving DecidableEq, Repr

/-- Read one field of a MediaElement. -/
def getField (f : ElemField) (e : MediaElement) : FieldValue :=
  match f with
  | .id => .str e.id
  | .kind => .knd e.kind
  | .src => .str e.src
  | .width => .num e.width
  | .height => .num e.height
  | .x => .num e.x
  | .y => .num e.y
  | .startTime => .num e.startTime
  | .endTime => .num e.endTime

/-- Field a patch writes to. -/
def Patch.field : Patch → ElemField
  | .id _ => .id
  | .kind _ => .kind
  | .src _ => .src
  | .width _ => .width
  | .height _ => .height
  | .x _ => .x
  | .y _ => .y
  | .startTime _ => .startTime
  | .endTime _ => .endTime

/-- Element store update of video-edior.tsx (updateMediaProperty):
map over the element list, replacing the named property of every
element whose id matches and leaving every other element untouched.
The value is stored as given; the function performs no clamping. -/
def updateMediaProperty (i : String) (p : Patch) (es : List MediaElement) :
    List MediaElement :=
  es.map (fun e => if e.id = i then applyPatch p e else e)

/-- Playback clock of video-edior.tsx: currentTime and isPlaying. -/
structure Clock where
  time : ℚ
  running : Bool
  deriving DecidableEq, Repr

/-- Interval callback of startPlaybackTimer in video-edior.tsx:
newTime = prev + delta; if newTime is at least the timeline duration the
timer is cleared, isPlaying is set to false and currentTime becomes 0,
otherwise currentTime becomes newTime and isPlaying is untouched.  The
source fixes delta at 0.1 (its 100 ms interval); the step is kept as a
parameter so the clock can be stated for any tick amount. -/
def tick (duration delta : ℚ) (c : Clock) : Clock :=
  let newTime := c.time + delta
  if duration ≤ newTime then { time := 0, running := false }
  else { time := newTime, running := c.running }

/-- Visibility expression of video-edior.tsx, the isVisible prop passed
to each MediaItem: currentTime is at least startTime and at most
endTime. -/
def isVisible (e : MediaElement) (t : ℚ) : Bool :=
  decide (e.startTime ≤ t) && decide (t ≤ e.endTime)

/-- Claim C1: from any clock state with time in the timeline range, a
tick with positive delta adds delta to the time; whenever the
incremented time reaches or exceeds the duration the same tick resets
the time to 0 and stops the clock; and in every case the resulting time
stays at most the duration. -/
theorem tick_adds_and_wraps (duration delta : ℚ) (c : Clock)
    (h0 : 0 ≤ c.time) (h1 : c.time ≤ duration) (hd : 0 < delta) :
    (c.time + delta < duration →
      tick duration delta c = { time := c.time + delta, running := c.running }) ∧
    (duration ≤ c.time + delta →
      (tick duration delta c).time = 0 ∧ (tick duration delta c).running = false) ∧
    (tick duration delta c).time ≤ duration := by
  have hdur : 0 ≤ duration := le_trans h0 h1
  by_cases h : duration ≤ c.time + delta
  · refine ⟨fun hlt => absurd h (not_le.mpr hlt), fun _ => ?_, ?_⟩
    · simp [tick, h]
    · simp [tick, h, hdur]
  · refine ⟨fun _ => ?_, fun hge => absurd hge h, ?_⟩
    · simp [tick, h]
    · simp [tick, h]
      exact le_of_lt (not_le.mp h)

/-- Witness for tick_adds_and_wraps: at duration 60, a 0.1 tick from
time 59.9 wraps to 0 and stops the clock. -/
theorem tick_adds_and_wraps_witness :
    (tick 60 (1/10) { time := 599/10, running := true }).time = 0 ∧
    (tick 60 (1/10) { time := 599/10, running := true }).running = false :=
  (tick_adds_and_wraps 60 (1/10) { time := 599/10, running := true }
    (by norm_num) (by norm_num) (by norm_num)).2.1 (by norm_num)

/-- Claim C2: the visibility expression holds exactly when the clock
time is at least the window start and at most the window end, both
bounds inclusive; and an element whose start is strictly past its end
is never visible. -/
theorem isVisible_iff_in_window (e : MediaElement) (t : ℚ) :
    (isVisible e t = true ↔ e.startTime ≤ t ∧ t ≤ e.endTime) ∧
    (e.endTime < e.startTime → isVisible e t = false) := by
  constructor
  · simp [isVisible]
  · intro hlt
    simp only [isVisible, Bool.and_eq_true, decide_eq_true_eq] at *
    by_contra hne
    rw [Bool.not_eq_false, Bool.and_eq_true, decide_eq_true_eq,
      decide_eq_true_eq] at hne
    exact absurd (le_trans hne.1 hne.2) (not_le.mpr hlt)

/-- Sample element with an inverted window (start 20 past end 5). -/
def invertedElem : MediaElement :=
  { id := "a", kind := .image, src := "s", width := 320, height := 240,
    x := 100, y := 100, startTime := 20, endTime := 5 }

/-- Sample element with the default image window 0 to 10. -/
def imageElem : MediaElement :=
  { id := "b", kind := .image, src := "s", width := 320, height := 240,
    x := 100, y := 100, startTime := 0, endTime := 10 }

/-- Witness for isVisible_iff_in_window: an element with window
start 20, end 5 is invisible at time 10, and one with window 0 to 10 is
visible at its end boundary 10. -/
theorem isVisible_iff_in_window_witness :
    isVisible invertedElem 10 = false ∧ isVisible imageElem 10 = true :=
  ⟨(isVisible_iff_in_window invertedElem 10).2 (by norm_num [invertedElem]),
   (isVisible_iff_in_window imageElem 10).1.mpr (by norm_num [imageElem])⟩

/-- Claim C3, counterexample: updateMediaProperty stores a width of 10
verbatim, below the 50-unit floor, so the store's update does not clamp
geometry.width to the minimum floor. -/
theorem updateMediaProperty_no_clamp_cx :
    (updateMediaProperty "b" (.width 10) [imageElem]).map MediaElement.width
      = [10] ∧ ¬ (50 ≤ (10 : ℚ)) := by decide

/-- Claim C3 as amended: for every element id in the store and every
numeric width or height value, including values below 50, zero or
negative, updateMediaProperty stores the given value verbatim in every
matching element, with no clamping and no rejection; the 50-unit floor
is enforced only upstream, by the resize interaction, before commit. -/
theorem updateMediaProperty_stores_verbatim (es : List MediaElement)
    (i : String) (v : ℚ) :
    ∀ (j : ℕ) (e : MediaElement), es[j]? = some e → e.id = i →
      (updateMediaProperty i (.width v) es)[j]? = some { e with width := v } ∧
      (updateMediaProperty i (.height v) es)[j]? = some { e with height := v } := by
  intro j e hj hid
  constructor <;> simp [updateMediaProperty, List.getElem?_map, hj, hid, applyPatch]

/-- Witness for updateMediaProperty_stores_verbatim: updating the width
of the stored image element to 10 stores exactly 10. -/
theorem updateMediaProperty_stores_verbatim_witness :
    (updateMediaProperty "b" (.width 10) [imageElem])[0]?
      = some { imageElem with width := 10 } :=
  (updateMediaProperty_stores_verbatim [imageElem] "b" 10 0 imageElem
    rfl rfl).1

/-- Claim C10: a single-field update changes at most the named field of
the elements whose id matches: the list keeps its length and order,
non-matching elements are returned untouched, matching elements change
only through the patch, the patch leaves every other field as it was,
and when no element has the given id the list is unchanged entirely. -/
theorem updateMediaProperty_frame (es : List MediaElement) (i : String)
    (p : Patch) :
    (updateMediaProperty i p es).length = es.length ∧
    (∀ (j : ℕ) (e : MediaElement), es[j]? = some e → e.id ≠ i →
      (updateMediaProperty i p es)[j]? = some e) ∧
    (∀ (j : ℕ) (e : MediaElement), es[j]? = some e → e.id = i →
      (updateMediaProperty i p es)[j]? = some (applyPatch p e)) ∧
    (∀ e f, f ≠ p.field → getField f (applyPatch p e) = getField f e) ∧
    ((∀ e ∈ es, e.id ≠ i) → updateMediaProperty i p es = es) := by
  refine ⟨?_, ?_, ?_, ?_, ?_⟩
  · simp [updateMediaProperty]
  · intro j e hj hid
    simp [updateMediaProperty, List.getElem?_map, hj, hid]
  · intro j e hj hid
    simp [updateMediaProperty, List.getElem?_map, hj, hid]
  · intro e f hf
    cases p <;> cases f <;> simp_all [Patch.field, applyPatch, getField]
  · intro h
    have hcongr : ∀ e ∈ es,
        (if e.id = i then applyPatch p e else e) = e := by
      intro e he
      simp [h e he]
    calc updateMediaProperty i p es
        = es.map (fun e => e) := List.map_congr_left hcongr
      _ = es := List.map_id' es

/-- Witness for updateMediaProperty_frame: updating id "zzz", absent
from the store, leaves the one-element list unchanged, and the stored
element is returned untouched at its index. -/
theorem updateMediaProperty_frame_witness :
    (updateMediaProperty "zzz" (.x 5) [imageElem])[0]? = some imageElem ∧
    updateMediaProperty "zzz" (.x 5) [imageElem] = [imageElem] :=
  ⟨(updateMediaProperty_frame [imageElem] "zzz" (.x 5)).2.1 0 imageElem
      rfl (by decide),
   (updateMediaProperty_frame [imageElem] "zzz" (.x 5)).2.2.2.2 (by decide)⟩

/-- Modelled from the spec: the timeline slider seek.  The in-source
handler stores the slider value into currentTime and does not touch
isPlaying; the constraint of the input to the range 0 to duration is
performed by the slider widget, repository code that is not under src,
so the clamp is taken from the spec sentence seek sets time to
clamp(t, 0, timelineDuration). -/
def seek (duration t : ℚ) (c : Clock) : Clock :=
  { time := min (max t 0) duration, running := c.running }

/-- Claim C5: for every input t, including t below 0 and t above the
duration, seek sets the time to the clamp of t into the range 0 to
duration, works in either clock state, and leaves running unchanged. -/
theorem seek_clamps (duration t : ℚ) (c : Clock) (hdur : 0 ≤ duration) :
    (seek duration t c).time = min (max t 0) duration ∧
    0 ≤ (seek duration t c).time ∧
    (seek duration t c).time ≤ duration ∧
    (seek duration t c).running = c.running := by
  refine ⟨rfl, ?_, ?_, rfl⟩
  · exact le_min (le_max_right t 0) hdur
  · exact min_le_right _ _

/-- Witness for seek_clamps: seeking to -5 on a 60-second timeline from
a running clock at time 10 lands in range and keeps the clock running. -/
theorem seek_clamps_witness :
    0 ≤ (seek 60 (-5) { time := 10, running := true }).time ∧
    (seek 60 (-5) { time := 10, running := true }).time ≤ 60 ∧
    (seek 60 (-5) { time := 10, running := true }).running = true :=
  ⟨(seek_clamps 60 (-5) { time := 10, running := true } (by norm_num)).2.1,
   (seek_clamps 60 (-5) { time := 10, running := true } (by norm_num)).2.2.1,
   (seek_clamps 60 (-5) { time := 10, running := true } (by norm_num)).2.2.2⟩

/-- Position-resync effect of media-item.tsx: when the element is not a
video or not visible, nothing happens; otherwise videoTime is
max(0, currentTime - startTime) and the surface is seeked to videoTime
exactly when the surface's reported position differs from it by more
than 0.2 seconds.  The result is the seek command issued, if any. -/
def syncSeek (kind : MediaKind) (visible : Bool)
    (clockTime startTime surfacePos : ℚ) : Option ℚ :=
  if kind ≠ MediaKind.video ∨ visible = false then none
  else
    let videoTime := max 0 (clockTime - startTime)
    if 0.2 < |surfacePos - videoTime| then some videoTime else none

/-- Claim C6: for a visible video element the adapter seeks to
localTime = max(0, clockTime - startTime) exactly when the surface's
position differs from localTime by more than 0.2 seconds, and for an
element that is not visible no seek is ever issued. -/
theorem syncSeek_policy (t s pos : ℚ) :
    (0.2 < |pos - max 0 (t - s)| →
      syncSeek MediaKind.video true t s pos = some (max 0 (t - s))) ∧
    (|pos - max 0 (t - s)| ≤ 0.2 →
      syncSeek MediaKind.video true t s pos = none) ∧
    (∀ (k : MediaKind), syncSeek k false t s pos = none) := by
  refine ⟨fun h => ?_, fun h => ?_, fun k => ?_⟩
  · simp [syncSeek, h]
  · simp [syncSeek, not_lt.mpr h]
  · simp [syncSeek]

/-- Witness for syncSeek_policy: the spec scenario of a video whose
window starts at 5 with the clock at 12 and the surface at position 0;
the difference 7 exceeds 0.2, so the adapter seeks to 7. -/
theorem syncSeek_policy_witness :
    syncSeek MediaKind.video true 12 5 0 = some 7 := by
  have h := (syncSeek_policy 12 5 0).1 (by norm_num)
  rw [h]
  norm_num

/-- Command issued to the player surface. -/
inductive PlayerCmd where
  | play
  | pause
  deriving DecidableEq, Repr

/-- Play/pause effect of media-item.tsx: play exactly when the element
is visible and the timeline is playing, pause in every other case. -/
def playbackCmd (visible timelinePlaying : Bool) : PlayerCmd :=
  if visible && timelinePlaying then .play else .pause

/-- Catch handler of the play request in media-item.tsx: the error is
written to the console and the clock and element list are returned
exactly as they were. -/
def onPlayError (errMsg : String) (c : Clock) (es : List MediaElement) :
    Clock × List MediaElement × String :=
  (c, es, "Video play error: " ++ errMsg)

/-- Claim C7: the adapter instructs the surface to play exactly when
the element is visible and the timeline is running, and to pause in
every other case; a play error is logged and leaves the clock and the
element store untouched. -/
theorem playbackCmd_policy (visible timelinePlaying : Bool) :
    (playbackCmd visible timelinePlaying = PlayerCmd.play ↔
      visible = true ∧ timelinePlaying = true) ∧
    (playbackCmd visible timelinePlaying = PlayerCmd.pause ↔
      ¬ (visible = true ∧ timelinePlaying = true)) ∧
    (∀ (m : String) (c : Clock) (es : List MediaElement),
      (onPlayError m c es).1 = c ∧ (onPlayError m c es).2.1 = es) := by
  refine ⟨?_, ?_, fun m c es => ⟨rfl, rfl⟩⟩ <;>
    cases visible <;> cases timelinePlaying <;> simp [playbackCmd]

/-- Witness for playbackCmd_policy: visible and running yields play,
and a play error leaves a sample clock unchanged. -/
theorem playbackCmd_policy_witness :
    playbackCmd true true = PlayerCmd.play ∧
    (onPlayError "refused" { time := 3, running := true } []).1
      = { time := 3, running := true } :=
  ⟨(playbackCmd_policy true true).1.mpr ⟨rfl, rfl⟩,
   ((playbackCmd_policy true true).2.2 "refused"
      { time := 3, running := true } []).1⟩

/-- Resizing branch of handleMouseMove in media-item.tsx: new width is
max(50, pointer x minus the element's left edge), new height is
max(50, pointer y minus the element's top edge); the pair becomes the
transient dimensions preview. -/
def resizeMove (left top px py : ℚ) : ℚ × ℚ :=
  (max 50 (px - left), max 50 (py - top))

/-- Resize session: the transient dimensions after a sequence of
pointer moves, starting from the dimensions held at the press.  The
element's top-left corner stays fixed while resizing. -/
def resizeSession (left top : ℚ) (init : ℚ × ℚ)
    (moves : List (ℚ × ℚ)) : ℚ × ℚ :=
  moves.foldl (fun _ p => resizeMove left top p.1 p.2) init

/-- Commit on release from a resize session: onResize writes width then
height through updateMediaProperty. -/
def commitResize (i : String) (dims : ℚ × ℚ)
    (es : List MediaElement) : List MediaElement :=
  updateMediaProperty i (.height dims.2) (updateMediaProperty i (.width dims.1) es)

/-- Folding a function that ignores its accumulator keeps only the last
element of a nonempty list. -/
lemma foldl_const_last {α β : Type} (g : α → β) (init : β) (l : List α)
    (h : l ≠ []) :
    l.foldl (fun _ p => g p) init = g (l.getLast h) := by
  induction l generalizing init with
  | nil => exact absurd rfl h
  | cons p rest ih =>
    cases rest with
    | nil => simp [List.getLast]
    | cons q rest2 =>
      rw [List.foldl_cons, ih (g p) (by simp),
        List.getLast_cons (by simp : q :: rest2 ≠ [])]

/-- Every element of a resize commit whose id matches got exactly the
committed dimensions. -/
lemma commitResize_matched (i : String) (d : ℚ × ℚ)
    (es : List MediaElement) :
    ∀ e ∈ commitResize i d es, e.id = i → e.width = d.1 ∧ e.height = d.2 := by
  intro e he hid
  simp only [commitResize, updateMediaProperty, List.mem_map] at he
  obtain ⟨a, ⟨b, _, hfb⟩, hga⟩ := he
  by_cases hbi : b.id = i
  · subst hga
    simp only [← hfb, hbi, if_pos, applyPatch]
    exact ⟨trivial, trivial⟩
  · have hab : a = b := by
      rw [← hfb, if_neg hbi]
    have hai : a.id ≠ i := hab ▸ hbi
    rw [← hga, if_neg hai] at hid ⊢
    exact absurd hid hai

/-- Claim C4: over any resize session with at least one pointer move,
the transient dimensions equal the last pointer position minus the
fixed top-left corner, each coordinate clamped below at 50; both
committed dimensions are at least 50; and every store element matched
by the commit ends with width and height at least 50. -/
theorem resizeSession_clamped (left top : ℚ) (init : ℚ × ℚ)
    (moves : List (ℚ × ℚ)) (h : moves ≠ []) :
    resizeSession left top init moves
      = resizeMove left top (moves.getLast h).1 (moves.getLast h).2 ∧
    50 ≤ (resizeSession left top init moves).1 ∧
    50 ≤ (resizeSession left top init moves).2 ∧
    (∀ (i : String) (es : List MediaElement),
      ∀ e ∈ commitResize i (resizeSession left top init moves) es,
        e.id = i → 50 ≤ e.width ∧ 50 ≤ e.height) := by
  have hlast : resizeSession left top init moves
      = resizeMove left top (moves.getLast h).1 (moves.getLast h).2 :=
    foldl_const_last _ init moves h
  have hw : 50 ≤ (resizeSession left top init moves).1 := by
    rw [hlast]; exact le_max_left _ _
  have hh : 50 ≤ (resizeSession left top init moves).2 := by
    rw [hlast]; exact le_max_left _ _
  refine ⟨hlast, hw, hh, fun i es e he hid => ?_⟩
  obtain ⟨he1, he2⟩ := commitResize_matched i _ es e he hid
  exact ⟨he1 ▸ hw, he2 ▸ hh⟩

/-- Witness for resizeSession_clamped: the spec scenario of an element
at (100,100) resized by a single pointer move to (120,130) commits the
clamped dimensions 50 by 50. -/
theorem resizeSession_clamped_witness :
    resizeSession 100 100 (320, 240) [(120, 130)] = (50, 50) := by
  have h := (resizeSession_clamped 100 100 (320, 240) [(120, 130)]
    (by simp)).1
  rw [h]
  norm_num [resizeMove]

/-- Commit on release from a drag session: onDragEnd writes x then y
through updateMediaProperty. -/
def commitDrag (i : String) (pos : ℚ × ℚ)
    (es : List MediaElement) : List MediaElement :=
  updateMediaProperty i (.y pos.2) (updateMediaProperty i (.x pos.1) es)

/-- Clock effect of startPlaybackTimer in video-edior.tsx: the interval
is installed and isPlaying becomes true; currentTime is untouched. -/
def startPlaybackTimer (c : Clock) : Clock :=
  { c with running := true }

/-- Document mouseup handler of media-item.tsx: if dragging, the
transient position is committed; if resizing, the transient dimensions
are committed and restartTimer is invoked when it was passed, which the
composition surface does exactly when isPlaying is false, so a resize
release on a stopped clock starts the playback timer; both interaction
flags end false.  While the clock is stopped no tick fires and the
pointer is held down, so the clock state at release is the state that
held when the session began. -/
def handleMouseUp (dragging resizing : Bool) (pos dims : ℚ × ℚ)
    (i : String) (es : List MediaElement) (c : Clock) :
    List MediaElement × Clock × Bool × Bool :=
  let es1 := if dragging then commitDrag i pos es else es
  let es2 := if resizing then commitResize i dims es1 else es1
  let c2 := if resizing then (if c.running then c else startPlaybackTimer c)
    else c
  (es2, c2, false, false)

/-- Claim C9: releasing a resize session whose clock is stopped, as it
was when the session began, leaves the clock running, while releasing a
drag session returns the clock exactly as it was, whatever its state. -/
theorem resizeRelease_resumes (pos dims : ℚ × ℚ) (i : String)
    (es : List MediaElement) (c : Clock) (hstopped : c.running = false) :
    ((handleMouseUp false true pos dims i es c).2.1).running = true ∧
    (∀ (c2 : Clock) (drg : Bool) (es2 : List MediaElement),
      (handleMouseUp drg false pos dims i es2 c2).2.1 = c2) := by
  constructor
  · simp [handleMouseUp, hstopped, startPlaybackTimer]
  · intro c2 drg es2
    simp [handleMouseUp]

/-- Witness for resizeRelease_resumes: a resize release on a stopped
clock at time 10 resumes playback, and a drag release on the same clock
leaves it stopped. -/
theorem resizeRelease_resumes_witness :
    ((handleMouseUp false true (0, 0) (60, 70) "b" [imageElem]
      { time := 10, running := false }).2.1).running = true ∧
    (handleMouseUp true false (250, 250) (60, 70) "b" [imageElem]
      { time := 10, running := false }).2.1
      = { time := 10, running := false } :=
  ⟨(resizeRelease_resumes (0, 0) (60, 70) "b" [imageElem]
      { time := 10, running := false } rfl).1,
   (resizeRelease_resumes (250, 250) (60, 70) "b" [imageElem]
      { time := 10, running := false } rfl).2
      { time := 10, running := false } true [imageElem]⟩

/-- Interaction flags of one MediaItem: isDragging and isResizing. -/
structure ElemUI where
  dragging : Bool
  resizing : Bool
  deriving DecidableEq, Repr

/-- Pointer events over the whole composition: a press on the body of
element i (handleMouseDown), a press on the resize handle of element i
(handleResizeMouseDown), and a pointer release (the document mouseup
listeners of every element holding an active session). -/
inductive PointerEvent where
  | press (i : ℕ)
  | pressHandle (i : ℕ)
  | release
  deriving DecidableEq, Repr

/-- handleMouseDown of element i: sets that element's isDragging flag
unconditionally; the handler checks no other element's session. -/
def setDragging : ℕ → List ElemUI → List ElemUI
  | _, [] => []
  | 0, e :: rest => { e with dragging := true } :: rest
  | n + 1, e :: rest => e :: setDragging n rest

/-- handleResizeMouseDown of element i: sets that element's isResizing
flag unconditionally. -/
def setResizing : ℕ → List ElemUI → List ElemUI
  | _, [] => []
  | 0, e :: rest => { e with resizing := true } :: rest
  | n + 1, e :: rest => e :: setResizing n rest

/-- Document mouseup: every element holding an active session clears
its flags, so after a release every element is idle. -/
def releaseAll (s : List ElemUI) : List ElemUI :=
  s.map (fun _ => { dragging := false, resizing := false })

/-- One pointer event applied to the per-element interaction states. -/
def uiStep (s : List ElemUI) : PointerEvent → List ElemUI
  | .press i => setDragging i s
  | .pressHandle i => setResizing i s
  | .release => releaseAll s

/-- An element is mid-interaction when it is dragging or resizing. -/
def isActive (e : ElemUI) : Bool := e.dragging || e.resizing

/-- Number of elements mid-interaction. -/
def countActive (s : List ElemUI) : ℕ := (s.filter isActive).length

/-- Every element idle. -/
def allIdle (s : List ElemUI) : Bool := s.all (fun e => !isActive e)

/-- A fully idle composition has no active element. -/
lemma countActive_of_allIdle (s : List ElemUI) (h : allIdle s = true) :
    countActive s = 0 := by
  induction s with
  | nil => rfl
  | cons a t ih =>
    rw [allIdle, List.all_cons, Bool.and_eq_true] at h
    have ha : isActive a = false := by
      have := h.1
      rwa [Bool.not_eq_true'] at this
    rw [countActive, List.filter_cons, ha]
    exact ih h.2

/-- Setting one element's drag flag in an idle composition activates at
most that element. -/
lemma countActive_setDragging_le (i : ℕ) (s : List ElemUI)
    (h : allIdle s = true) : countActive (setDragging i s) ≤ 1 := by
  induction s generalizing i with
  | nil => cases i <;> simp [setDragging, countActive]
  | cons a t ih =>
    rw [allIdle, List.all_cons, Bool.and_eq_true] at h
    have ha : isActive a = false := by
      have := h.1
      rwa [Bool.not_eq_true'] at this
    have ht0 : countActive t = 0 := countActive_of_allIdle t h.2
    cases i with
    | zero =>
      rw [setDragging, countActive, List.filter_cons]
      by_cases hb : isActive { a with dragging := true }
      · simp only [hb, if_pos]
        simpa [countActive] using ht0
      · simp only [hb, if_neg, Bool.false_eq_true, ite_false]
        have : countActive t ≤ 1 := by omega
        simpa [countActive] using this
    | succ n =>
      rw [setDragging, countActive, List.filter_cons, ha]
      exact ih n h.2

/-- Setting one element's resize flag in an idle composition activates
at most that element. -/
lemma countActive_setResizing_le (i : ℕ) (s : List ElemUI)
    (h : allIdle s = true) : countActive (setResizing i s) ≤ 1 := by
  induction s generalizing i with
  | nil => cases i <;> simp [setResizing, countActive]
  | cons a t ih =>
    rw [allIdle, List.all_cons, Bool.and_eq_true] at h
    have ha : isActive a = false := by
      have := h.1
      rwa [Bool.not_eq_true'] at this
    have ht0 : countActive t = 0 := countActive_of_allIdle t h.2
    cases i with
    | zero =>
      rw [setResizing, countActive, List.filter_cons]
      by_cases hb : isActive { a with resizing := true }
      · simp only [hb, if_pos]
        simpa [countActive] using ht0
      · simp only [hb, if_neg, Bool.false_eq_true, ite_false]
        have : countActive t ≤ 1 := by omega
        simpa [countActive] using this
    | succ n =>
      rw [setResizing, countActive, List.filter_cons, ha]
      exact ih n h.2

/-- Pressing element i rewrites exactly the i-th interaction state. -/
lemma setDragging_get (i : ℕ) (s : List ElemUI) :
    (setDragging i s)[i]? = s[i]?.map (fun e => { e with dragging := true }) := by
  induction s generalizing i with
  | nil => cases i <;> simp [setDragging]
  | cons a t ih =>
    cases i with
    | zero => simp [setDragging]
    | succ n => simpa [setDragging] using ih n

/-- Pressing element i's handle rewrites exactly the i-th state. -/
lemma setResizing_get (i : ℕ) (s : List ElemUI) :
    (setResizing i s)[i]? = s[i]?.map (fun e => { e with resizing := true }) := by
  induction s generalizing i with
  | nil => cases i <;> simp [setResizing]
  | cons a t ih =>
    cases i with
    | zero => simp [setResizing]
    | succ n => simpa [setResizing] using ih n

/-- Claim C8, counterexample: from two idle elements, a body press on
element 0 followed by a body press on element 1, with no release in
between, leaves two elements mid-interaction; the second press is not
ignored, it changes the state. -/
theorem press_not_ignored_cx :
    countActive (uiStep (uiStep [⟨false, false⟩, ⟨false, false⟩]
      (.press 0)) (.press 1)) = 2 ∧
    ¬ (countActive (uiStep (uiStep [⟨false, false⟩, ⟨false, false⟩]
      (.press 0)) (.press 1)) ≤ 1) ∧
    uiStep (uiStep [⟨false, false⟩, ⟨false, false⟩] (.press 0)) (.press 1)
      ≠ uiStep [⟨false, false⟩, ⟨false, false⟩] (.press 0) := by
  decide

/-- Claim C8 as amended: a pointer-press always starts a session on the
pressed element, whether or not another element is mid-interaction; a
release returns every element to idle; and from an all-idle state any
single event leaves at most one element mid-interaction, so the
at-most-one invariant holds exactly on the traces in which every press
happens from an all-idle state. -/
theorem interaction_press_policy (s : List ElemUI) (i : ℕ) :
    (∀ e : ElemUI, s[i]? = some e →
      (uiStep s (.press i))[i]? = some { e with dragging := true } ∧
      (uiStep s (.pressHandle i))[i]? = some { e with resizing := true }) ∧
    allIdle (uiStep s .release) = true ∧
    (allIdle s = true → ∀ ev : PointerEvent, countActive (uiStep s ev) ≤ 1) := by
  refine ⟨fun e he => ⟨?_, ?_⟩, ?_, fun h ev => ?_⟩
  · rw [uiStep, setDragging_get, he, Option.map_some']
  · rw [uiStep, setResizing_get, he, Option.map_some']
  · simp [uiStep, releaseAll, allIdle, List.all_map, isActive]
  · cases ev with
    | press j => exact countActive_setDragging_le j s h
    | pressHandle j => exact countActive_setResizing_le j s h
    | release =>
      have : countActive (releaseAll s) = 0 := by
        simp [releaseAll, countActive, List.filter_map, isActive]
      simp only [uiStep, this]
      omega

/-- Witness for interaction_press_policy: pressing element 0 of a
two-element idle composition drags exactly that element. -/
theorem interaction_press_policy_witness :
    (uiStep [⟨false, false⟩, ⟨false, false⟩] (.press 0))[0]?
      = some ⟨true, false⟩ ∧
    countActive (uiStep [⟨false, false⟩, ⟨false, false⟩] (.press 0)) ≤ 1 :=
  ⟨((interaction_press_policy [⟨false, false⟩, ⟨false, false⟩] 0).1
      ⟨false, false⟩ rfl).1,
   (interaction_press_policy [⟨false, false⟩, ⟨false, false⟩] 0).2.2 rfl
      (.press 0)⟩
